import Mathlib

set_option linter.unusedVariables false
set_option linter.unnecessarySeqFocus false
set_option linter.unreachableTactic false
set_option linter.unusedTactic false

/-!
# Verification of the haverhill-dart-league scrape-and-aggregate pipeline

Shallow embedding of the core pipeline of this repository:

* `lib/scrape-runner.ts` — notation parsing, turn accumulation, tiebreaker
  (game-3) policy, strength of schedule, round inference, score
  reconciliation, the persistence (upsert) pass, and `runScrape`;
* `lib/dartconnect.ts` — the shapes of the fetched match data that the
  pipeline consumes;
* the leaderboard page — hot-hand threshold resolution and the derived
  hot-hand pass over week-level stats;
* `netlify/functions/scrape-background.ts` — the catch-and-log wrapper.

JavaScript numbers that hold integral values are modelled as `Int`
(wrapping 32-bit arithmetic is made explicit where the source uses `| 0`);
`NaN`-able results of `Number(...)` coercions are modelled as `Option Int`
with `none` for `NaN`, and every comparison against `none` is false, as in
JavaScript.  JavaScript `Map`s are modelled as insertion-ordered
association lists.  Timestamp columns (`updatedAt`, `createdAt`,
`lastScrapedAt`) are omitted from the persisted-row models: they change on
every run and are not statistics.
-/

/-! ## Small JavaScript-semantics helpers -/

/-- JavaScript 32-bit signed integer coercion (the `| 0` operator). -/
def toInt32 (n : Int) : Int := (n + 2 ^ 31) % 2 ^ 32 - 2 ^ 31

/-- A JavaScript value in a `turn_score`-like position: a number, a string,
or `null`/`undefined` (merged as `.null`). -/
inductive JSVal where
  | str (s : String)
  | num (n : Int)
  | null
deriving DecidableEq, Repr

/-- `Number(s)` for the integral strings this pipeline meets: an optional
sign followed by digits.  `Number("") = 0`; anything unparseable is `NaN`,
modelled as `none`.  (Fractional and exotic numeric syntax does not occur
in the turn data this code consumes.) -/
def jsStringToInt (s : List Char) : Option Int :=
  match s with
  | [] => some 0
  | '-' :: rest =>
    if rest ≠ [] ∧ rest.all Char.isDigit then
      some (-(Int.ofNat (rest.foldl (fun n c => n * 10 + (c.toNat - '0'.toNat)) 0)))
    else none
  | l =>
    if l.all Char.isDigit then
      some (Int.ofNat (l.foldl (fun n c => n * 10 + (c.toNat - '0'.toNat)) 0))
    else none

/-- `t.turn_score` coerced as in
`typeof t.turn_score === "number" ? t.turn_score : Number(t.turn_score ?? 0)`. -/
def jsToNumber : JSVal → Option Int
  | .num n => some n
  | .null => some 0
  | .str s => jsStringToInt s.data

/-- `o >= k` with JavaScript `NaN` semantics (`none` compares false). -/
def ogeB (o : Option Int) (k : Int) : Bool :=
  match o with
  | some x => k ≤ x
  | none => false

/-- `o > k` with JavaScript `NaN` semantics. -/
def ogtB (o : Option Int) (k : Int) : Bool :=
  match o with
  | some x => k < x
  | none => false

/-- `o === k` on a possibly-`NaN` number. -/
def oeqB (o : Option Int) (k : Int) : Bool :=
  match o with
  | some x => x = k
  | none => false

/-! ## Insertion-ordered association lists (JavaScript `Map`) -/

/-- `map.get(k)`: the value of the (unique, by `Map` semantics) entry for
`k`; on lists built only with `alSet` the first match is the only match. -/
def alGet {κ β : Type} [DecidableEq κ] (l : List (κ × β)) (k : κ) : Option β :=
  (l.find? (fun p => p.1 = k)).map (·.2)

/-- `map.set(k, v)`: replace in place if present, else append. -/
def alSet {κ β : Type} [DecidableEq κ] (l : List (κ × β)) (k : κ) (v : β) : List (κ × β) :=
  if l.any (fun p => p.1 = k) then
    l.map (fun p => if p.1 = k then (p.1, v) else p)
  else l ++ [(k, v)]

/-- Update the entry for `k` in place when present; do nothing otherwise
(the `const w = acc.weekStats.get(weekKey); if (w) ...` pattern). -/
def alModify {κ β : Type} [DecidableEq κ] (l : List (κ × β)) (k : κ) (f : β → β) :
    List (κ × β) :=
  l.map (fun p => if p.1 = k then (p.1, f p.2) else p)

/-- `map.has(k)`. -/
def alHas {κ β : Type} [DecidableEq κ] (l : List (κ × β)) (k : κ) : Bool :=
  l.any (fun p => p.1 = k)

/-! ## `guidToFakeId` (scrape-runner.ts)

```
function guidToFakeId(guid: string): number {
  let h = 0;
  for (const c of guid) { h = (h * 31 + c.charCodeAt(0)) | 0; }
  return h < 0 ? h : ~h;
}
```
Bitwise NOT on a 32-bit integer is `~h = -(h + 1)`. -/

def guidHashStep (h : Int) (c : Char) : Int := toInt32 (h * 31 + c.toNat)

def guidToFakeId (guid : String) : Int :=
  let h := guid.data.foldl guidHashStep 0
  if h < 0 then h else -(h + 1)

theorem guidToFakeId_neg (guid : String) : guidToFakeId guid < 0 := by
  unfold guidToFakeId
  set h := guid.data.foldl guidHashStep 0 with hh
  by_cases hlt : h < 0
  · simp [hlt]
  · simp only [hlt, if_false]
    omega

/-! ## Cricket notation parser (scrape-runner.ts `parseCricketMarks`)

```
function parseCricketMarks(notation: unknown): number {
  if (typeof notation !== "string") return 0;
  const re = /([TDS](?:B|[0-9]+))(?:x([0-9]))?/g;
  let marks = 0; let m;
  while ((m = re.exec(notation)) !== null) {
    const hit = m[1];
    const rep = m[2] ? parseInt(m[2]) : 1;
    if (hit === "DB") marks += 2 * rep;
    else if (hit === "SB") marks += 1 * rep;
    else if (hit[0] === "T") marks += 3 * rep;
    else if (hit[0] === "D") marks += 2 * rep;
    else if (hit[0] === "S") marks += 1 * rep;
  }
  return marks;
}
```
The global-regex scan is embedded as a left-to-right scanner: at each
position a hit is `[TDS]` followed by `B` (tried first, as in the regex
alternation) or by a maximal nonempty digit run, optionally followed by
`x<digit>`; positions that start no hit are skipped one character at a
time, exactly as `exec` advances. -/

/-- The per-hit mark value, in the source's branch order (`"DB"` → 2,
`"SB"` → 1, then first letter `T`/`D`/`S` → 3/2/1, so `"TB"` falls through
to the `T` branch and is worth 3). -/
def hitMarks (c : Char) (bull : Bool) : Nat :=
  if bull ∧ c = 'D' then 2
  else if bull ∧ c = 'S' then 1
  else if c = 'T' then 3
  else if c = 'D' then 2
  else if c = 'S' then 1
  else 0

def digitVal (c : Char) : Nat := c.toNat - '0'.toNat

/-- Split a maximal leading digit run. -/
def readDigits : List Char → List Char × List Char
  | [] => ([], [])
  | c :: cs =>
    if c.isDigit then
      let p := readDigits cs
      (c :: p.1, p.2)
    else ([], c :: cs)

theorem readDigits_snd_length (l : List Char) : (readDigits l).2.length ≤ l.length := by
  induction l with
  | nil => simp [readDigits]
  | cons c cs ih =>
    by_cases h : c.isDigit <;> simp [readDigits, h] <;> omega

/-- Consume an optional `x<digit>` repetition suffix, returning the
multiplier (`1` when absent) and where scanning resumes. -/
def repSplit (l : List Char) : Nat × List Char :=
  match l with
  | 'x' :: d :: r => if d.isDigit then (digitVal d, r) else (1, 'x' :: d :: r)
  | _ => (1, l)

theorem repSplit_snd_length (l : List Char) : (repSplit l).2.length ≤ l.length := by
  unfold repSplit
  split
  · split <;> simp only [List.length_cons] <;> omega
  · simp

/-- The scanner underlying `parseCricketMarks`, over the character list. -/
def marksFrom : List Char → Nat
  | [] => 0
  | c :: cs =>
    if c = 'T' ∨ c = 'D' ∨ c = 'S' then
      if cs.head? = some 'B' then
        let q := repSplit cs.tail
        hitMarks c true * q.1 + marksFrom q.2
      else
        let p := readDigits cs
        if p.1.isEmpty then marksFrom cs
        else
          let q := repSplit p.2
          hitMarks c false * q.1 + marksFrom q.2
    else marksFrom cs
termination_by l => l.length
decreasing_by
  all_goals simp only [List.length_cons]
  all_goals
    first
    | (have h1 := repSplit_snd_length cs.tail
       have h2 : cs.tail.length ≤ cs.length := by cases cs <;> simp
       omega)
    | (have h1 := repSplit_snd_length (readDigits cs).2
       have h2 := readDigits_snd_length cs
       omega)
    | omega

def parseCricketMarks : JSVal → Nat
  | .str s => marksFrom s.data
  | _ => 0

/-! ### Scanner equation lemmas -/

theorem marksFrom_nil : marksFrom [] = 0 := by
  unfold marksFrom
  rfl

theorem marksFrom_skip (c : Char) (cs : List Char)
    (h : ¬(c = 'T' ∨ c = 'D' ∨ c = 'S')) :
    marksFrom (c :: cs) = marksFrom cs := by
  conv_lhs => unfold marksFrom
  simp [h]

theorem marksFrom_bull (c : Char) (cs2 : List Char)
    (h : c = 'T' ∨ c = 'D' ∨ c = 'S') :
    marksFrom (c :: 'B' :: cs2) =
      hitMarks c true * (repSplit cs2).1 + marksFrom (repSplit cs2).2 := by
  conv_lhs => unfold marksFrom
  simp [h]

theorem marksFrom_digits (c : Char) (cs ds r : List Char)
    (h : c = 'T' ∨ c = 'D' ∨ c = 'S')
    (hB : cs.head? ≠ some 'B')
    (hrd : readDigits cs = (ds, r)) (hne : ds ≠ []) :
    marksFrom (c :: cs) =
      hitMarks c false * (repSplit r).1 + marksFrom (repSplit r).2 := by
  conv_lhs => unfold marksFrom
  simp [h, hB, hrd, hne]

theorem marksFrom_nohit (c : Char) (cs : List Char)
    (h : c = 'T' ∨ c = 'D' ∨ c = 'S')
    (hB : cs.head? ≠ some 'B')
    (h1 : (readDigits cs).1 = []) :
    marksFrom (c :: cs) = marksFrom cs := by
  conv_lhs => unfold marksFrom
  simp [h, hB, h1]

/-! ### The cricket grammar of the specification (§4.2)

Tokens `T<number>`, `D<number>`, `S<number>`, `SB`, `DB`, each optionally
followed by `x<digit>`, plus the bare `0`; value mapping triple=3,
double=2, single=1, `DB`=2, `SB`=1.  This is the specification-side
definition used to compare the source parser against the claimed grammar
semantics.  Numbers are represented by their (nonempty, all-digit)
character lists. -/

inductive CHit where
  | single (ds : List Char)
  | dbl (ds : List Char)
  | triple (ds : List Char)
  | singleBull
  | doubleBull
deriving DecidableEq, Repr

def CHit.wf : CHit → Bool
  | .single ds => !ds.isEmpty && ds.all Char.isDigit
  | .dbl ds => !ds.isEmpty && ds.all Char.isDigit
  | .triple ds => !ds.isEmpty && ds.all Char.isDigit
  | .singleBull => true
  | .doubleBull => true

def CHit.val : CHit → Nat
  | .single _ => 1
  | .dbl _ => 2
  | .triple _ => 3
  | .singleBull => 1
  | .doubleBull => 2

def CHit.render : CHit → List Char
  | .single ds => 'S' :: ds
  | .dbl ds => 'D' :: ds
  | .triple ds => 'T' :: ds
  | .singleBull => ['S', 'B']
  | .doubleBull => ['D', 'B']

def digitChar (d : Fin 10) : Char := Char.ofNat (48 + d.val)

inductive CTok where
  | hit (h : CHit) (rep : Option (Fin 10))
  | zero
deriving DecidableEq, Repr

def CTok.wf : CTok → Bool
  | .hit h _ => h.wf
  | .zero => true

def CTok.val : CTok → Nat
  | .hit h rep => h.val * (match rep with | some d => d.val | none => 1)
  | .zero => 0

def CTok.render : CTok → List Char
  | .hit h rep => h.render ++ (match rep with | some d => ['x', digitChar d] | none => [])
  | .zero => ['0']

/-- Render a token list with the `", "` separators of the documented
notation (e.g. `"T20, S18x2, DB, 0"`). -/
def renderToks : List CTok → List Char
  | [] => []
  | [t] => t.render
  | t :: ts => t.render ++ ',' :: ' ' :: renderToks ts

def sumVals (toks : List CTok) : Nat := (toks.map CTok.val).sum

/-! ### Facts about digits and rendering -/

theorem digit_ne (c : Char) (h : c.isDigit = true) :
    c ≠ 'B' ∧ c ≠ 'T' ∧ c ≠ 'D' ∧ c ≠ 'S' ∧ c ≠ 'x' ∧ c ≠ ',' := by
  refine ⟨?_, ?_, ?_, ?_, ?_, ?_⟩ <;>
    (intro heq; subst heq; exact absurd h (by decide))

theorem digitChar_isDigit : ∀ d : Fin 10, (digitChar d).isDigit = true := by decide

theorem digitVal_digitChar : ∀ d : Fin 10, digitVal (digitChar d) = d.val := by decide

theorem readDigits_of_digits (ds l : List Char) (hds : ds.all Char.isDigit = true)
    (hl : ∀ c, l.head? = some c → c.isDigit = false) :
    readDigits (ds ++ l) = (ds, l) := by
  induction ds with
  | nil =>
    cases l with
    | nil => simp [readDigits]
    | cons c l2 =>
      have := hl c (by simp)
      simp [readDigits, this]
  | cons d ds2 ih =>
    simp only [List.all_cons, Bool.and_eq_true] at hds
    simp [readDigits, hds.1, ih hds.2]

theorem repSplit_rep (d : Fin 10) (rest : List Char) :
    repSplit ('x' :: digitChar d :: rest) = (d.val, rest) := by
  unfold repSplit
  simp [digitChar_isDigit d, digitVal_digitChar d]

theorem repSplit_nil : repSplit [] = (1, []) := rfl

theorem repSplit_cons_ne (c : Char) (l : List Char) (h : c ≠ 'x') :
    repSplit (c :: l) = (1, c :: l) := by
  unfold repSplit
  split
  · rename_i heq
    injection heq with h1 h2
    exact absurd h1 h
  · rfl

/-- `sepOk rest` holds when the rendering continues with a separator or
ends; this is what isolates one token from the next for the scanner. -/
def sepOk (l : List Char) : Prop := l = [] ∨ ∃ r, l = ',' :: r

theorem repSplit_sepOk (l : List Char) (h : sepOk l) : repSplit l = (1, l) := by
  rcases h with rfl | ⟨r, rfl⟩
  · rfl
  · exact repSplit_cons_ne ',' r (by decide)

theorem marksFrom_sep (l : List Char) :
    marksFrom (',' :: ' ' :: l) = marksFrom l := by
  rw [marksFrom_skip ',' _ (by decide), marksFrom_skip ' ' _ (by decide)]

/-- Scanning a letter hit `c ++ digits ++ optional-rep` followed by a
separator (or the end). -/
theorem marksFrom_letterTok (c : Char) (ds : List Char) (rep : Option (Fin 10))
    (rest : List Char) (hc : c = 'T' ∨ c = 'D' ∨ c = 'S')
    (hne : ds ≠ []) (hdig : ds.all Char.isDigit = true) (hsep : sepOk rest) :
    marksFrom (c :: ds ++ (match rep with | some d => ['x', digitChar d] | none => []) ++ rest) =
      hitMarks c false * (match rep with | some d => d.val | none => 1) + marksFrom rest := by
  have hsepHead : ∀ ch, rest.head? = some ch → ch.isDigit = false := by
    rcases hsep with rfl | ⟨r, rfl⟩
    · intro ch hch; simp at hch
    · intro ch hch; simp at hch; subst hch; decide
  cases rep with
  | some d =>
    simp only [List.cons_append, List.append_assoc, List.nil_append]
    have hB : (ds ++ 'x' :: digitChar d :: rest).head? ≠ some 'B' := by
      cases ds with
      | nil => exact absurd rfl hne
      | cons c0 cs0 =>
        simp only [List.all_cons, Bool.and_eq_true] at hdig
        simp only [List.cons_append, List.head?_cons]
        intro hcon
        exact (digit_ne c0 hdig.1).1 (Option.some.inj hcon)
    have hrd := readDigits_of_digits ds ('x' :: digitChar d :: rest) hdig
      (by intro ch hch; simp at hch; subst hch; decide)
    rw [marksFrom_digits c _ ds ('x' :: digitChar d :: rest) hc hB hrd hne]
    rw [repSplit_rep d rest]
  | none =>
    simp only [List.cons_append, List.append_assoc, List.nil_append]
    have hB : (ds ++ rest).head? ≠ some 'B' := by
      cases ds with
      | nil => exact absurd rfl hne
      | cons c0 cs0 =>
        simp only [List.all_cons, Bool.and_eq_true] at hdig
        simp only [List.cons_append, List.head?_cons]
        intro hcon
        exact (digit_ne c0 hdig.1).1 (Option.some.inj hcon)
    have hrd := readDigits_of_digits ds rest hdig hsepHead
    rw [marksFrom_digits c _ ds rest hc hB hrd hne]
    rw [repSplit_sepOk rest hsep]

/-- Scanning a bull hit `cB ++ optional-rep` followed by a separator (or
the end). -/
theorem marksFrom_bullTok (c : Char) (rep : Option (Fin 10)) (rest : List Char)
    (hc : c = 'T' ∨ c = 'D' ∨ c = 'S') (hsep : sepOk rest) :
    marksFrom (c :: 'B' :: ((match rep with | some d => ['x', digitChar d] | none => []) ++ rest)) =
      hitMarks c true * (match rep with | some d => d.val | none => 1) + marksFrom rest := by
  cases rep with
  | some d =>
    simp only [List.cons_append, List.nil_append]
    rw [marksFrom_bull c _ hc]
    rw [repSplit_rep d rest]
  | none =>
    simp only [List.nil_append]
    rw [marksFrom_bull c _ hc]
    rw [repSplit_sepOk rest hsep]

/-- One token's rendering followed by a separator (or the end) contributes
exactly its value. -/
theorem marksFrom_tok (t : CTok) (rest : List Char) (hwf : t.wf = true)
    (hsep : sepOk rest) :
    marksFrom (t.render ++ rest) = t.val + marksFrom rest := by
  cases t with
  | zero =>
    simp only [CTok.render, CTok.val, List.cons_append, List.nil_append]
    rw [marksFrom_skip '0' _ (by decide)]
    omega
  | hit h rep =>
    cases h with
    | singleBull =>
      have h1 := marksFrom_bullTok 'S' rep rest (by simp) hsep
      simp only [CTok.render, CHit.render, CTok.val, CHit.val, List.cons_append,
        List.append_assoc, List.nil_append] at h1 ⊢
      rw [h1]
      cases rep <;> simp [hitMarks]
    | doubleBull =>
      have h1 := marksFrom_bullTok 'D' rep rest (by simp) hsep
      simp only [CTok.render, CHit.render, CTok.val, CHit.val, List.cons_append,
        List.append_assoc, List.nil_append] at h1 ⊢
      rw [h1]
      cases rep <;> simp [hitMarks]
    | triple ds =>
      simp only [CTok.wf, CHit.wf, Bool.and_eq_true] at hwf
      obtain ⟨hne, hdig⟩ := hwf
      have hne2 : ds ≠ [] := by intro hcon; subst hcon; simp at hne
      have h1 := marksFrom_letterTok 'T' ds rep rest (by simp) hne2 hdig hsep
      simp only [CTok.render, CHit.render, CTok.val, CHit.val, List.cons_append,
        List.append_assoc, List.nil_append] at h1 ⊢
      rw [h1]
      cases rep <;> simp [hitMarks]
    | dbl ds =>
      simp only [CTok.wf, CHit.wf, Bool.and_eq_true] at hwf
      obtain ⟨hne, hdig⟩ := hwf
      have hne2 : ds ≠ [] := by intro hcon; subst hcon; simp at hne
      have h1 := marksFrom_letterTok 'D' ds rep rest (by simp) hne2 hdig hsep
      simp only [CTok.render, CHit.render, CTok.val, CHit.val, List.cons_append,
        List.append_assoc, List.nil_append] at h1 ⊢
      rw [h1]
      cases rep <;> simp [hitMarks]
    | single ds =>
      simp only [CTok.wf, CHit.wf, Bool.and_eq_true] at hwf
      obtain ⟨hne, hdig⟩ := hwf
      have hne2 : ds ≠ [] := by intro hcon; subst hcon; simp at hne
      have h1 := marksFrom_letterTok 'S' ds rep rest (by simp) hne2 hdig hsep
      simp only [CTok.render, CHit.render, CTok.val, CHit.val, List.cons_append,
        List.append_assoc, List.nil_append] at h1 ⊢
      rw [h1]
      cases rep <;> simp [hitMarks]

/-- The scanner computes the grammar-prescribed mark sum on every
well-formed rendered token list. -/
theorem marksFrom_renderToks (toks : List CTok)
    (hwf : ∀ t ∈ toks, t.wf = true) :
    marksFrom (renderToks toks) = sumVals toks := by
  induction toks with
  | nil => simp [renderToks, sumVals, marksFrom_nil]
  | cons t ts ih =>
    cases ts with
    | nil =>
      have h1 := marksFrom_tok t [] (hwf t (by simp)) (Or.inl rfl)
      simp only [List.append_nil] at h1
      simp [renderToks, sumVals, h1, marksFrom_nil]
    | cons t2 ts2 =>
      have h1 := marksFrom_tok t (',' :: ' ' :: renderToks (t2 :: ts2))
        (hwf t (by simp)) (Or.inr ⟨_, rfl⟩)
      have h2 := marksFrom_sep (renderToks (t2 :: ts2))
      have h3 := ih (by intro u hu; exact hwf u (by simp [hu]))
      simp only [renderToks, h1, h2, h3]
      simp [sumVals]

/-! ## Game-type classifier (scrape-runner.ts `gameType`)

Case-insensitive substring match on `"601"` / `"501"` / `"cricket"`;
anything else is `other` and is excluded from per-game-type accumulation. -/

inductive GType where
  | g601 | g501 | crkt | other
deriving DecidableEq, Repr

/-- Does `hay` start with `needle`? -/
def listLeads : List Char → List Char → Bool
  | [], _ => true
  | _ :: _, [] => false
  | a :: as, b :: bs => a == b && listLeads as bs

/-- `hay.includes(needle)` on character lists. -/
def hasSub (needle : List Char) : List Char → Bool
  | [] => listLeads needle []
  | c :: t => listLeads needle (c :: t) || hasSub needle t

def gameType (gameName : String) : GType :=
  let n := gameName.data.map Char.toLower
  if hasSub "601".data n then .g601
  else if hasSub "501".data n then .g501
  else if hasSub "cricket".data n then .crkt
  else .other

/-! ## Fetched match-segment shapes (dartconnect.ts) -/

structure DCGameTurnSide where
  /-- `""` models a missing/falsy player name (`if (!t?.name) continue`). -/
  name : String
  turn_score : JSVal
  current_score : Option Int
deriving DecidableEq, Repr

structure DCGameTurn where
  home : Option DCGameTurnSide
  away : Option DCGameTurnSide
deriving DecidableEq, Repr

structure DCGameLegSide where
  ppr : Option String
  darts_thrown : Option Int
  ending_points : Option Int
deriving DecidableEq, Repr

structure DCGameLeg where
  set_index : Int
  /-- 1 = first leg, 2 = second, 3 = tiebreaker. -/
  set_game_number : Int
  game_name : String
  /-- 0 = home won, 1 = away won. -/
  winner_index : Int
  home : DCGameLegSide
  away : DCGameLegSide
  turns : List DCGameTurn
deriving DecidableEq, Repr

/-- `setWinner` (scrape-runner.ts): majority of leg winners; empty set or
tie yields no winner. -/
def setWinner (legs : List DCGameLeg) : Option Int :=
  if legs.isEmpty then none
  else
    let counts := legs.foldl
      (fun (p : Int × Int) leg =>
        if leg.winner_index = 0 then (p.1 + 1, p.2)
        else if leg.winner_index = 1 then (p.1, p.2 + 1)
        else p)
      (0, 0)
    if counts.2 < counts.1 then some 0
    else if counts.1 < counts.2 then some 1
    else none

/-! ## Scoring-config rows and the game-3 (tiebreaker) policy (section E0)

```
const g3 = {
  include180:     g3CfgMap["g3.include_180"]     !== "false", // default true
  includeRo9:     g3CfgMap["g3.include_ro9"]     !== "false", // default true
  includeHout:    g3CfgMap["g3.include_hout"]    !== "false", // default true
  include100p:    g3CfgMap["g3.include_100plus"] === "true",  // default false
  includeRnds:    g3CfgMap["g3.include_rnds"]    === "true",  // default false
  includePerfect: g3CfgMap["g3.include_perfect"] === "true",  // default false
};
```
with `g3CfgMap` built from the `scoringConfig` rows whose scope is
`"global"` or the target season, with a falsy (null/empty) division:
global rows first, season rows overriding. -/

structure ScoringConfigRow where
  scope : String
  division : Option String
  key : String
  value : String
deriving DecidableEq, Repr

/-- JavaScript `!r.division` (null, undefined or empty string). -/
def divisionFalsy : Option String → Bool
  | none => true
  | some s => s.isEmpty

def g3CfgMap (rows : List ScoringConfigRow) (seasonId : String) : String → Option String :=
  fun k =>
    let ordered :=
      rows.filter (fun r => r.scope == "global" && divisionFalsy r.division) ++
      rows.filter (fun r => r.scope == seasonId && divisionFalsy r.division)
    ((ordered.filter (fun r => r.key == k)).getLast?).map (·.value)

structure G3Config where
  include180 : Bool
  includeRo9 : Bool
  includeHout : Bool
  include100p : Bool
  includeRnds : Bool
  includePerfect : Bool
deriving DecidableEq, Repr

def g3Of (m : String → Option String) : G3Config where
  include180 := !(m "g3.include_180" == some "false")
  includeRo9 := !(m "g3.include_ro9" == some "false")
  includeHout := !(m "g3.include_hout" == some "false")
  include100p := m "g3.include_100plus" == some "true"
  includeRnds := m "g3.include_rnds" == some "true"
  includePerfect := m "g3.include_perfect" == some "true"

def g3Resolve (rows : List ScoringConfigRow) (seasonId : String) : G3Config :=
  g3Of (g3CfgMap rows seasonId)

/-- The documented default policy: 180s / 9-mark rounds / high-outs count
in tiebreakers, 100+ totals / cricket rounds / the perfect-score carve-out
do not. -/
def defaultG3 : G3Config :=
  { include180 := true, includeRo9 := true, includeHout := true,
    include100p := false, includeRnds := false, includePerfect := false }

theorem g3Resolve_nil (seasonId : String) : g3Resolve [] seasonId = defaultG3 := rfl

/-! ## Accumulators (scrape-runner.ts `WeekAccum` / `PlayerAccum`) -/

structure WeekAccum where
  opponentTeam : String
  setWins : Int
  setLosses : Int
  crktWins : Int
  crktLosses : Int
  col601Wins : Int
  col601Losses : Int
  col501Wins : Int
  col501Losses : Int
  hundredPlus : Int
  oneEighty : Int
  ro9 : Int
  hOut : Int
  ldg : Int
  rnds : Int
  mpr : Option String
  ppr : Option String
deriving DecidableEq, Repr

def emptyWeek (opponentTeam : String) : WeekAccum :=
  { opponentTeam := opponentTeam,
    setWins := 0, setLosses := 0, crktWins := 0, crktLosses := 0,
    col601Wins := 0, col601Losses := 0, col501Wins := 0, col501Losses := 0,
    hundredPlus := 0, oneEighty := 0, ro9 := 0, hOut := 0, ldg := 999, rnds := 0,
    mpr := none, ppr := none }

structure PlayerAccum where
  dcId : String
  name : String
  teamName : String
  setWins : Int
  setLosses : Int
  crktWins : Int
  crktLosses : Int
  col601Wins : Int
  col601Losses : Int
  col501Wins : Int
  col501Losses : Int
  hundredPlus : Int
  cricketRnds : Int
  oneEighty : Int
  ro9 : Int
  hOut : Int
  minDarts501 : Int
  zeroOnePointsTotal : Int
  zeroOneDartsTotal : Int
  crktMarksTotal : Int
  crktDartsTotal : Int
  weekHundredPlus : List (String × Int)
  weeksPlayed : List String
  opponentNames : List String
  weekStats : List (String × WeekAccum)
deriving DecidableEq, Repr

def emptyAccum (dcId name teamName : String) : PlayerAccum :=
  { dcId := dcId, name := name, teamName := teamName,
    setWins := 0, setLosses := 0, crktWins := 0, crktLosses := 0,
    col601Wins := 0, col601Losses := 0, col501Wins := 0, col501Losses := 0,
    hundredPlus := 0, cricketRnds := 0, oneEighty := 0, ro9 := 0, hOut := 0,
    minDarts501 := 999,
    zeroOnePointsTotal := 0, zeroOneDartsTotal := 0,
    crktMarksTotal := 0, crktDartsTotal := 0,
    weekHundredPlus := [], weeksPlayed := [], opponentNames := [], weekStats := [] }

/-- JavaScript `Set.add` (insertion-ordered, no duplicates). -/
def setAdd (l : List String) (s : String) : List String :=
  if l.contains s then l else l ++ [s]

/-- The accumulation map `accumByName`. -/
def AccMap : Type := List (String × PlayerAccum)

/-! ## Per-turn statistics accumulation (scrape-runner.ts section E)

The body of the `for (const side of ["home", "away"])` loop, lines
436–464: the five policy-guarded updates, in source order (100+ total,
180 counter, high-out maximum, cricket rounds, 9-mark counter). -/

def legIs501TB (ty : GType) (leg : DCGameLeg) : Bool :=
  ty == GType.g501 && leg.set_game_number == 3

def legIsCrktG3 (ty : GType) (leg : DCGameLeg) : Bool :=
  ty == GType.crkt && leg.set_game_number == 3

def applyTurnSide (g3 : G3Config) (ty : GType) (tb501 crktG3 : Bool)
    (weekKey : String) (t : DCGameTurnSide) (acc : PlayerAccum) : PlayerAccum :=
  let is01 := ty == GType.g601 || ty == GType.g501
  let isCrkt := ty == GType.crkt
  let score01 : Option Int := if is01 then jsToNumber t.turn_score else some 0
  let crktMarks : Nat := if isCrkt then parseCricketMarks t.turn_score else 0
  let remaining := t.current_score
  let a1 :=
    if is01 && ogeB score01 100 &&
        (!tb501 || g3.include100p || (g3.includePerfect && oeqB score01 180)) then
      { acc with
        hundredPlus := acc.hundredPlus + score01.getD 0,
        weekHundredPlus := alSet acc.weekHundredPlus weekKey
          ((alGet acc.weekHundredPlus weekKey).getD 0 + score01.getD 0),
        weekStats := alModify acc.weekStats weekKey
          (fun w => { w with hundredPlus := w.hundredPlus + score01.getD 0 }) }
    else acc
  let a2 :=
    if is01 && oeqB score01 180 && (!tb501 || g3.include180) then
      { a1 with
        oneEighty := a1.oneEighty + 1,
        weekStats := alModify a1.weekStats weekKey
          (fun w => { w with oneEighty := w.oneEighty + 1 }) }
    else a1
  let a3 :=
    if is01 && oeqB remaining 0 && ogtB score01 100 && (!tb501 || g3.includeHout) then
      { a2 with
        hOut := if ogtB score01 a2.hOut then score01.getD 0 else a2.hOut,
        weekStats := alModify a2.weekStats weekKey
          (fun w => { w with hOut := if ogtB score01 w.hOut then score01.getD 0 else w.hOut }) }
    else a2
  let a4 :=
    if isCrkt && decide (6 ≤ crktMarks) &&
        (!crktG3 || g3.includeRnds || (g3.includePerfect && decide (crktMarks = 9))) then
      { a3 with
        cricketRnds := a3.cricketRnds + (crktMarks : Int),
        weekStats := alModify a3.weekStats weekKey
          (fun w => { w with rnds := w.rnds + (crktMarks : Int) }) }
    else a3
  let a5 :=
    if isCrkt && decide (crktMarks = 9) && (!crktG3 || g3.includeRo9) then
      { a4 with
        ro9 := a4.ro9 + 1,
        weekStats := alModify a4.weekStats weekKey
          (fun w => { w with ro9 := w.ro9 + 1 }) }
    else a4
  a5

def applyTurnSideMap (g3 : G3Config) (ty : GType) (tb501 crktG3 : Bool)
    (weekKey : String) (side : Option DCGameTurnSide) (m : AccMap) : AccMap :=
  match side with
  | none => m
  | some t =>
    if t.name.isEmpty then m
    else
      match alGet m t.name with
      | none => m
      | some acc => alSet m t.name (applyTurnSide g3 ty tb501 crktG3 weekKey t acc)

def applyTurn (g3 : G3Config) (ty : GType) (tb501 crktG3 : Bool)
    (weekKey : String) (turn : DCGameTurn) (m : AccMap) : AccMap :=
  applyTurnSideMap g3 ty tb501 crktG3 weekKey turn.away
    (applyTurnSideMap g3 ty tb501 crktG3 weekKey turn.home m)

def processLegTurns (g3 : G3Config) (ty : GType) (weekKey : String)
    (leg : DCGameLeg) (m : AccMap) : AccMap :=
  leg.turns.foldl
    (fun m turn => applyTurn g3 ty (legIs501TB ty leg) (legIsCrktG3 ty leg) weekKey turn m) m

/-! ## Set award and 501 low-dart tracking (section E) -/

/-- Names appearing on one side across all legs of a set. -/
def legSideNames (legs : List DCGameLeg) (home : Bool) : List String :=
  legs.foldl
    (fun acc leg =>
      leg.turns.foldl
        (fun acc turn =>
          match (if home then turn.home else turn.away) with
          | some t => if t.name.isEmpty then acc else setAdd acc t.name
          | none => acc)
        acc)
    []

/-- Credit one player's season and week records for a set win or loss. -/
def awardOne (ty : GType) (isWinner : Bool) (weekKey : String)
    (acc : PlayerAccum) : PlayerAccum :=
  if isWinner then
    let acc1 := { acc with setWins := acc.setWins + 1 }
    let acc2 :=
      match ty with
      | .crkt => { acc1 with crktWins := acc1.crktWins + 1 }
      | .g601 => { acc1 with col601Wins := acc1.col601Wins + 1 }
      | .g501 => { acc1 with col501Wins := acc1.col501Wins + 1 }
      | .other => acc1
    { acc2 with
      weekStats := alModify acc2.weekStats weekKey (fun w =>
        let w1 := { w with setWins := w.setWins + 1 }
        match ty with
        | .crkt => { w1 with crktWins := w1.crktWins + 1 }
        | .g601 => { w1 with col601Wins := w1.col601Wins + 1 }
        | .g501 => { w1 with col501Wins := w1.col501Wins + 1 }
        | .other => w1) }
  else
    let acc1 := { acc with setLosses := acc.setLosses + 1 }
    let acc2 :=
      match ty with
      | .crkt => { acc1 with crktLosses := acc1.crktLosses + 1 }
      | .g601 => { acc1 with col601Losses := acc1.col601Losses + 1 }
      | .g501 => { acc1 with col501Losses := acc1.col501Losses + 1 }
      | .other => acc1
    { acc2 with
      weekStats := alModify acc2.weekStats weekKey (fun w =>
        let w1 := { w with setLosses := w.setLosses + 1 }
        match ty with
        | .crkt => { w1 with crktLosses := w1.crktLosses + 1 }
        | .g601 => { w1 with col601Losses := w1.col601Losses + 1 }
        | .g501 => { w1 with col501Losses := w1.col501Losses + 1 }
        | .other => w1) }

/-- `awardSet` (scrape-runner.ts): each named participant gets a set
win/loss, the week bucket is created on demand, and every opposing name is
appended to the opponents-faced list (with multiplicity, one batch per
set). -/
def awardSet (ty : GType) (weekKey opponentTeamName : String)
    (playerSet opponentPlayers : List String) (isWinner : Bool)
    (m : AccMap) : AccMap :=
  playerSet.foldl
    (fun m pname =>
      match alGet m pname with
      | none => m
      | some acc0 =>
        let acc1 := { acc0 with
          weeksPlayed := setAdd acc0.weeksPlayed weekKey,
          opponentNames := acc0.opponentNames ++ opponentPlayers }
        let acc2 :=
          if alHas acc1.weekStats weekKey then acc1
          else { acc1 with weekStats := acc1.weekStats ++ [(weekKey, emptyWeek opponentTeamName)] }
        alSet m pname (awardOne ty isWinner weekKey acc2))
    m

/-- 501 legs only: the winning side's players track the minimum
darts-to-win across the season and the week. -/
def apply501Darts (weekKey : String) (leg : DCGameLeg)
    (homePlayers awayPlayers : List String) (m : AccMap) : AccMap :=
  let step := fun (m : AccMap) (sideIdx : Int) (sideDarts : Option Int)
      (names : List String) =>
    if leg.winner_index == sideIdx then
      match sideDarts with
      | some darts =>
        if 0 < darts then
          names.foldl
            (fun m nm =>
              match alGet m nm with
              | none => m
              | some acc =>
                alSet m nm
                  { acc with
                    minDarts501 := if darts < acc.minDarts501 then darts else acc.minDarts501,
                    weekStats := alModify acc.weekStats weekKey
                      (fun w => if darts < w.ldg then { w with ldg := darts } else w) })
            m
        else m
      | none => m
    else m
  step (step m 0 leg.home.darts_thrown homePlayers) 1 leg.away.darts_thrown awayPlayers

/-- Fold one set (group of legs) into the accumulation map: set award for
both sides, then the per-turn statistics and 501 low-dart pass per leg. -/
def processSet (g3 : G3Config) (weekKey homeTeamName awayTeamName : String)
    (legs : List DCGameLeg) (m : AccMap) : AccMap :=
  if legs.isEmpty then m
  else
    let ty := gameType ((legs.head?.map (·.game_name)).getD "")
    let winner := setWinner legs
    let homePlayers := legSideNames legs true
    let awayPlayers := legSideNames legs false
    let m1 := awardSet ty weekKey awayTeamName homePlayers awayPlayers (winner == some 0) m
    let m2 := awardSet ty weekKey homeTeamName awayPlayers homePlayers (winner == some 1) m1
    legs.foldl
      (fun m leg =>
        let m := processLegTurns g3 ty weekKey leg m
        if ty == GType.g501 then apply501Darts weekKey leg homePlayers awayPlayers m
        else m)
      m2

/-! ## Strength of schedule (sections G and K)

```
const playerWinPct = new Map<string, number>();
for (const [name, acc] of accumByName) {
  const total = acc.setWins + acc.setLosses;
  playerWinPct.set(name, total > 0 ? acc.setWins / total : 0);
}
...
let sos: string | null = null;
if (acc && acc.opponentNames.length > 0) {
  const pctSum = acc.opponentNames.reduce(
    (sum, oppName) => sum + (playerWinPct.get(oppName) ?? 0), 0);
  sos = (pctSum / acc.opponentNames.length).toFixed(3);
}
```
The win percentages for all rostered players are computed in a first pass
(section G) before any SOS is derived (section K).  The numeric value is
modelled exactly as a rational; the source formats it with `toFixed(3)`
for storage. -/

def winPctVal (acc : PlayerAccum) : Rat :=
  let total : Int := acc.setWins + acc.setLosses
  if 0 < total then (acc.setWins : Rat) / ((total : Int) : Rat) else 0

def playerWinPct (accums : AccMap) : List (String × Rat) :=
  accums.map (fun p => (p.1, winPctVal p.2))

/-- `playerWinPct.get(oppName) ?? 0`. -/
def sosLookup (pcts : List (String × Rat)) (name : String) : Rat :=
  (alGet pcts name).getD 0

def sosOf (pcts : List (String × Rat)) (acc : PlayerAccum) : Option Rat :=
  if acc.opponentNames.isEmpty then none
  else
    some ((acc.opponentNames.foldl (fun s n => s + sosLookup pcts n) 0) /
      (acc.opponentNames.length : Rat))

/-! ## Week-key parsing and round-number inference (sections H/I)

`weekKeyToISODate` turns `"27 Jan 2026"` into `"2026-01-27"`.  The
inference block (lines 580–602) then works on ISO dates; since all the
dates involved are UTC midnights, `Math.round((minMs - dateMs) / 86400000)`
is exactly their day difference, so dates are modelled as integer day
numbers in `inferRoundFor` / `inferRounds`. -/

def monthNum : String → Option String
  | "Jan" => some "01" | "Feb" => some "02" | "Mar" => some "03"
  | "Apr" => some "04" | "May" => some "05" | "Jun" => some "06"
  | "Jul" => some "07" | "Aug" => some "08" | "Sep" => some "09"
  | "Oct" => some "10" | "Nov" => some "11" | "Dec" => some "12"
  | _ => none

def weekKeyToISODate (weekKey : String) : Option String :=
  match weekKey.splitOn " " with
  | d :: m :: y :: _ =>
    match monthNum m with
    | none => none
    | some mn =>
      if d.isEmpty ∨ y.isEmpty then none
      else some (y ++ "-" ++ mn ++ "-" ++ (if d.length < 2 then "0" ++ d else d))
  | _ => none

/-- The anchor: the entry with the earliest date among the ISO-dated
schedule entries carrying a round number (the source sorts the entries by
date string and takes the first; map keys are unique, so this is the
minimum, keeping the earlier entry on equal keys). -/
def minIsoEntry (entries : List (Int × Int)) : Option (Int × Int) :=
  entries.foldl
    (fun best e =>
      match best with
      | none => some e
      | some b => if e.1 < b.1 then some e else some b)
    none

/-- The inference step for one history-discovered match date (the loop
body, lines 588–598): skipped when the date fails to parse, is on/after
the anchor date, or already has a round; otherwise the round is
`minRound - daysBack/7` when the offset is a positive exact multiple of 7
days AND that round number is positive. -/
def inferRoundFor (minDate minRound : Int) (iso : Option Int) (alreadyHas : Bool) :
    Option Int :=
  match iso with
  | none => none
  | some d =>
    if d ≥ minDate || alreadyHas then none
    else
      let daysBack := minDate - d
      if 0 < daysBack ∧ daysBack % 7 = 0 then
        let inferredRound := minRound - daysBack / 7
        if 0 < inferredRound then some inferredRound else none
      else none

/-- The whole inference block: fold every history match date through
`inferRoundFor` against the evolving `dateToRoundSeq` map. -/
def inferRounds (dateToRound : List (Int × Int)) (histDates : List (Option Int)) :
    List (Int × Int) :=
  match minIsoEntry dateToRound with
  | none => dateToRound
  | some mr =>
    histDates.foldl
      (fun m iso =>
        match iso with
        | none => m
        | some d =>
          match inferRoundFor mr.1 mr.2 (some d) (alHas m d) with
          | some r => alSet m d r
          | none => m)
      dateToRound

/-! ## Authoritative score reconciliation (section I, lines 647–660)

```
const matchInfo = matchData?.matchInfo;
let homeScore = homeSetWins, awayScore = awaySetWins;
if (matchInfo?.opponents && matchInfo.opponents.length >= 2) {
  const oppByName = new Map(matchInfo.opponents.map((o) => [o.name, o.score]));
  const fromHome = oppByName.get(homeTeamNameStr);
  const fromAway = oppByName.get(awayTeamNameStr);
  if (fromHome !== undefined && fromAway !== undefined) {
    homeScore = fromHome; awayScore = fromAway;
  } else {
    homeScore = matchInfo.opponents[0].score ?? homeSetWins;
    awayScore = matchInfo.opponents[1].score ?? awaySetWins;
  }
}
```
`new Map(entries)` keeps the last entry per key, and a missing `score`
surfaces as `undefined` from the map lookup, so both are modelled by
`lookupOppScoreLast` returning `Option Int`. -/

structure OppEntry where
  name : String
  /-- The platform-computed per-side score; `none` models a missing value. -/
  score : Option Int
deriving DecidableEq, Repr

structure DCMatchInfo where
  opponents : List OppEntry
  match_winner : Option Int
deriving DecidableEq, Repr

structure DCMatchData where
  matchInfo : Option DCMatchInfo
  roundSeq : Option Int
  schedDate : Option String
deriving DecidableEq, Repr

def lookupOppScoreLast (opps : List OppEntry) (nm : String) : Option Int :=
  match opps.reverse.find? (fun o => o.name = nm) with
  | some o => o.score
  | none => none

def resolveScores (md : Option DCMatchData) (homeTeamNameStr awayTeamNameStr : String)
    (homeSetWins awaySetWins : Int) : Int × Int :=
  match md.bind (·.matchInfo) with
  | some mi =>
    if 2 ≤ mi.opponents.length then
      match lookupOppScoreLast mi.opponents homeTeamNameStr,
            lookupOppScoreLast mi.opponents awayTeamNameStr with
      | some fromHome, some fromAway => (fromHome, fromAway)
      | _, _ =>
        (((mi.opponents.get? 0).bind (·.score)).getD homeSetWins,
         ((mi.opponents.get? 1).bind (·.score)).getD awaySetWins)
    else (homeSetWins, awaySetWins)
  | none => (homeSetWins, awaySetWins)

/-! ## Hot-hand thresholds and the derived hot-hand pass (leaderboard page)

```
const DEFAULT_HH = {
  A: { hh: 475, roHh: 20 }, B: { hh: 450, roHh: 17 },
  C: { hh: 425, roHh: 14 }, D: { hh: 400, roHh: 12 },
};
```
`getHhThresholds` reads the `01_hh.threshold` / `ro_hh.threshold` config
rows for scope global-or-season, builds a per-division map (season rows
override global rows; a division starts from its `DEFAULT_HH` entry, or
`{475, 20}` for unknown divisions), and the page then recomputes both
hot-hand values from the persisted week-level rows — overriding whatever
the scrape stored — as the maximum weekly total that meets or exceeds the
division's threshold (`null` when no week qualifies).  `Number(r.value)`
can be `NaN`, modelled as `none`; a `NaN` threshold disqualifies every
week, as in JavaScript. -/

structure HhThresholds where
  hh : Option Int
  roHh : Option Int
deriving DecidableEq, Repr

def DEFAULT_HH : String → Option HhThresholds
  | "A" => some ⟨some 475, some 20⟩
  | "B" => some ⟨some 450, some 17⟩
  | "C" => some ⟨some 425, some 14⟩
  | "D" => some ⟨some 400, some 12⟩
  | _ => none

/-- `Number(r.value)` (integral strings; `NaN` is `none`). -/
def numOfValue (v : String) : Option Int := jsStringToInt v.data

def getHhThresholds (rows : List ScoringConfigRow) (seasonId : String) :
    List (String × HhThresholds) :=
  let fetched := rows.filter
    (fun r => (r.scope == "global" || r.scope == seasonId) &&
      (r.key == "01_hh.threshold" || r.key == "ro_hh.threshold"))
  let ordered := fetched.filter (fun r => r.scope == "global") ++
    fetched.filter (fun r => !(r.scope == "global"))
  ordered.foldl
    (fun result r =>
      let div := r.division.getD ""
      let result :=
        if alHas result div then result
        else result ++ [(div, (DEFAULT_HH div).getD ⟨some 475, some 20⟩)]
      if r.key == "01_hh.threshold" then
        alModify result div (fun t => { t with hh := numOfValue r.value })
      else if r.key == "ro_hh.threshold" then
        alModify result div (fun t => { t with roHh := numOfValue r.value })
      else result)
    []

/-- `hhThresholds[div] ?? hhThresholds[""] ?? DEFAULT_HH[div] ?? {hh: 475, roHh: 20}`. -/
def thresholdsFor (result : List (String × HhThresholds)) (div : String) : HhThresholds :=
  ((alGet result div).or ((alGet result "").or (DEFAULT_HH div))).getD ⟨some 475, some 20⟩

/-- `x >= threshold` (false against a `NaN` threshold). -/
def meetsThr (x : Int) (t : Option Int) : Bool :=
  match t with
  | some v => v ≤ x
  | none => false

/-- One persisted week-level row as read back by the page. -/
structure WeekRow where
  hundredPlus : Int
  rnds : Int
deriving DecidableEq, Repr

/-- The derived 01 hot hand: fold the weeks, keeping the maximum weekly
100+ total among those meeting the threshold (`null` when none does). -/
def hotHand01 (th : HhThresholds) (weeks : List WeekRow) : Option Int :=
  weeks.foldl
    (fun z w =>
      if meetsThr w.hundredPlus th.hh then
        match z with
        | none => some w.hundredPlus
        | some v => some (max v w.hundredPlus)
      else z)
    none

/-- The derived cricket-rounds hot hand, same shape over weekly rounds. -/
def hotHandRo (th : HhThresholds) (weeks : List WeekRow) : Option Int :=
  weeks.foldl
    (fun z w =>
      if meetsThr w.rnds th.roHh then
        match z with
        | none => some w.rnds
        | some v => some (max v w.rnds)
      else z)
    none

/-! ## Run orchestrator (scrape-runner.ts `runScrape`) and the background
handler (netlify/functions/scrape-background.ts)

`runScrape` is modelled over an abstract per-season scrape
(`scrapeFn : Int → Except String (Int × Int)` standing for
`scrapeSeasonStats`, whose thrown errors are the `Except.error` branch)
and an abstract `lastScrapedAt` read.  The seasons-table upsert loop and
the archived-metadata backfill touch only the seasons/divisions/teams
tables and are omitted here.  A thrown error anywhere in `runScrape`
itself propagates as `Except.error`; the scrape-log row with status
`"success"` is inserted only on the non-throwing path, after the season
loop. -/

structure DCSeasonM where
  id : Int
  league_id : Int
  season : String
  start_date : Option String
deriving DecidableEq, Repr

structure PagePropsM where
  activeSeasons : List DCSeasonM
  archivedSeasons : List DCSeasonM
  leagueGuid : String
deriving DecidableEq, Repr

structure ScrapePayloadM where
  seasonId : Option Int
  all : Bool
  force : Bool
deriving DecidableEq, Repr

/-- One `seasonResults` entry: `{ ok: true, ...result }` or
`{ ok: false, error }`. -/
structure SeasonOutcome where
  ok : Bool
  playersUpdated : Int
  matchesUpdated : Int
  error : Option String
deriving DecidableEq, Repr

/-- One persisted `scrapeLog` row (timestamps omitted). -/
structure ScrapeLogRow where
  seasonId : Option Int
  triggeredBy : String
  status : String
  playersUpdated : Option Int
  matchesUpdated : Option Int
  errorMessage : Option String
deriving DecidableEq, Repr

structure ScrapeResultM where
  seasonsScraped : Int
  playersUpdated : Int
  matchesUpdated : Int
  seasonResults : List (String × SeasonOutcome)
  /-- The scrape-log rows inserted by `runScrape` itself. -/
  logRows : List ScrapeLogRow
deriving DecidableEq, Repr

/-- The `seasonResults` key, `` `${s.id}_${s.season}` ``. -/
def seasonKey (s : DCSeasonM) : String := toString s.id ++ "_" ++ s.season

inductive SelRes where
  /-- `throw` during selection (unknown explicit season id). -/
  | err (msg : String)
  /-- The `if (!activeSeason) return {...}` early exit (no log row). -/
  | early
  | ok (targets : List DCSeasonM)
deriving DecidableEq, Repr

/-- Target-season selection (modes: all/force, all-unscraped, explicit id,
active-only). -/
def selectTargets (pp : PagePropsM) (payload : ScrapePayloadM)
    (lastScraped : Int → Bool) : SelRes :=
  let allSeasonsList := pp.activeSeasons ++ pp.archivedSeasons
  if payload.all then
    if payload.force then .ok allSeasonsList
    else .ok (allSeasonsList.filter (fun s => !lastScraped s.id))
  else
    match payload.seasonId with
    | some sid =>
      match allSeasonsList.find? (fun s => s.id = sid) with
      | some found => .ok [found]
      | none => .err ("Season " ++ toString sid ++ " not found")
    | none =>
      match pp.activeSeasons.head? with
      | none => .early
      | some a => .ok [a]

/-- The outcome recorded in `seasonResults` for one season. -/
def seasonOutcomeOf (r : Except String (Int × Int)) : SeasonOutcome :=
  match r with
  | .ok (p, m) => { ok := true, playersUpdated := p, matchesUpdated := m, error := none }
  | .error msg => { ok := false, playersUpdated := 0, matchesUpdated := 0, error := some msg }

/-- One iteration of the `for (const s of seasonsToScrape)` loop: the
`try`/`catch` either adds the season's counts and an `ok` entry, or
records the caught error message for that season and moves on. -/
def seasonFoldStep (scrapeFn : Int → Except String (Int × Int))
    (st : Int × Int × List (String × SeasonOutcome)) (s : DCSeasonM) :
    Int × Int × List (String × SeasonOutcome) :=
  match scrapeFn s.id with
  | .ok (p, m) =>
    (st.1 + p, st.2.1 + m, st.2.2 ++ [(seasonKey s, seasonOutcomeOf (.ok (p, m)))])
  | .error msg =>
    (st.1, st.2.1, st.2.2 ++ [(seasonKey s, seasonOutcomeOf (.error msg))])

def runScrapeM (pp : PagePropsM) (lastScraped : Int → Bool)
    (scrapeFn : Int → Except String (Int × Int))
    (payload : ScrapePayloadM) (triggeredBy : String) :
    Except String ScrapeResultM :=
  let allSeasonsList := pp.activeSeasons ++ pp.archivedSeasons
  let activeSeason := pp.activeSeasons.head?
  if allSeasonsList.isEmpty then .error "No seasons found"
  else
    match selectTargets pp payload lastScraped with
    | .err msg => .error msg
    | .early =>
      .ok { seasonsScraped := 0, playersUpdated := 0, matchesUpdated := 0,
            seasonResults := [], logRows := [] }
    | .ok targets =>
      let folded := targets.foldl (seasonFoldStep scrapeFn) (0, 0, [])
      .ok { seasonsScraped := targets.length,
            playersUpdated := folded.1,
            matchesUpdated := folded.2.1,
            seasonResults := folded.2.2,
            logRows := [{ seasonId := activeSeason.map (·.id),
                          triggeredBy := triggeredBy,
                          status := "success",
                          playersUpdated := some folded.1,
                          matchesUpdated := some folded.2.1,
                          errorMessage := none }] }

/-- The scrape-log rows actually persisted for one invocation through the
background function: `runScrape`'s own insert on success, or the
handler's catch-block insert (status `"error"`, error text, no counts) on
a thrown error. -/
def persistedLog (pp : PagePropsM) (lastScraped : Int → Bool)
    (scrapeFn : Int → Except String (Int × Int))
    (payload : ScrapePayloadM) (triggeredBy : String) : List ScrapeLogRow :=
  match runScrapeM pp lastScraped scrapeFn payload triggeredBy with
  | .ok r => r.logRows
  | .error msg =>
    [{ seasonId := none, triggeredBy := triggeredBy, status := "error",
       playersUpdated := none, matchesUpdated := none, errorMessage := some msg }]

/-! # Helper lemmas for the claim theorems -/

theorem alGet_cons {κ β : Type} [DecidableEq κ] (p : κ × β) (l : List (κ × β)) (k : κ) :
    alGet (p :: l) k = if p.1 = k then some p.2 else alGet l k := by
  unfold alGet
  by_cases h : p.1 = k
  · rw [List.find?_cons_of_pos _ (by simpa using h), if_pos h]
    rfl
  · rw [List.find?_cons_of_neg _ (by simpa using h), if_neg h]

theorem alGet_alModify {κ β : Type} [DecidableEq κ] (l : List (κ × β)) (k k2 : κ) (f : β → β) :
    alGet (alModify l k f) k2 = (alGet l k2).map (fun b => if k2 = k then f b else b) := by
  induction l with
  | nil => rfl
  | cons p l ih =>
    have hstep : alModify (p :: l) k f =
        (if p.1 = k then (p.1, f p.2) else p) :: alModify l k f := by
      unfold alModify
      rw [List.map_cons]
    have hq1 : ((if p.1 = k then (p.1, f p.2) else p)).1 = p.1 := by split <;> rfl
    rw [hstep, alGet_cons, alGet_cons, hq1]
    by_cases h1 : p.1 = k2
    · rw [if_pos h1, if_pos h1]
      by_cases h2 : p.1 = k
      · have hk : k2 = k := by rw [← h1, h2]
        simp [h2, hk]
      · have hk : ¬ k2 = k := fun hcon => h2 (h1.trans hcon)
        simp [h2, hk]
    · rw [if_neg h1, if_neg h1]
      exact ih

theorem alGet_map_snd {κ β γ : Type} [DecidableEq κ] (l : List (κ × β)) (g : β → γ) (k : κ) :
    alGet (l.map (fun p => (p.1, g p.2))) k = (alGet l k).map g := by
  induction l with
  | nil => simp [alGet]
  | cons p l ih =>
    by_cases h : p.1 = k <;> simp [alGet, List.find?, h] <;> simpa [alGet] using ih

theorem foldl_add_eq_sum {α : Type} (f : α → Rat) (l : List α) :
    ∀ init : Rat, l.foldl (fun s n => s + f n) init = init + (l.map f).sum := by
  induction l with
  | nil => intro init; simp
  | cons a l ih =>
    intro init
    simp only [List.foldl_cons, List.map_cons, List.sum_cons]
    rw [ih]
    ring

/-! # Claim theorems -/

/-- **C1.** With the tiebreaker policy flags at their defaults
(`include_100plus` false, `include_perfect` false, `include_180` true), a
turn in a 501 tiebreaker leg (`set_game_number` 3) whose 3-dart score is
≥ 100 adds nothing to the season 100+ total, the per-week 100+ map, or
the week bucket's 100+ field; a tiebreaker turn scoring exactly 180 still
increments the 180 counter; and with the separate perfect-score flag
enabled, a 180 does get added to the 100+ total. -/
theorem c1_tiebreaker_100plus_default (gname : String) (leg : DCGameLeg)
    (weekKey : String) (t : DCGameTurnSide) (s : Int) (acc : PlayerAccum)
    (hty : gameType gname = GType.g501)
    (h3 : leg.set_game_number = 3)
    (hscore : t.turn_score = JSVal.num s)
    (hs : 100 ≤ s) :
    (applyTurnSide defaultG3 (gameType gname) (legIs501TB (gameType gname) leg)
        (legIsCrktG3 (gameType gname) leg) weekKey t acc).hundredPlus = acc.hundredPlus ∧
    (applyTurnSide defaultG3 (gameType gname) (legIs501TB (gameType gname) leg)
        (legIsCrktG3 (gameType gname) leg) weekKey t acc).weekHundredPlus = acc.weekHundredPlus ∧
    (alGet (applyTurnSide defaultG3 (gameType gname) (legIs501TB (gameType gname) leg)
        (legIsCrktG3 (gameType gname) leg) weekKey t acc).weekStats weekKey).map (·.hundredPlus) =
      (alGet acc.weekStats weekKey).map (·.hundredPlus) ∧
    (s = 180 →
      (applyTurnSide defaultG3 (gameType gname) (legIs501TB (gameType gname) leg)
        (legIsCrktG3 (gameType gname) leg) weekKey t acc).oneEighty = acc.oneEighty + 1) ∧
    (s = 180 →
      (applyTurnSide { defaultG3 with includePerfect := true } (gameType gname)
        (legIs501TB (gameType gname) leg) (legIsCrktG3 (gameType gname) leg)
        weekKey t acc).hundredPlus = acc.hundredPlus + 180) := by
  rw [hty]
  have hTB : legIs501TB GType.g501 leg = true := by simp [legIs501TB, h3]
  have hCG : legIsCrktG3 GType.g501 leg = false := by simp [legIsCrktG3]
  rw [hTB, hCG]
  simp only [applyTurnSide, hscore, jsToNumber, defaultG3,
    show (GType.g501 == GType.g601) = false from rfl,
    show (GType.g501 == GType.g501) = true from rfl,
    show (GType.g501 == GType.crkt) = false from rfl,
    Bool.not_true, Bool.false_or, Bool.or_false, Bool.true_and, Bool.and_true,
    Bool.false_and, Bool.and_false, Bool.or_true, Bool.true_or,
    if_false, if_true, oeqB, ogeB, ogtB]
  norm_num
  refine ⟨?_, ?_, ?_, ?_, ?_⟩
  · split_ifs <;> simp
  · split_ifs <;> simp
  · cases halg : alGet acc.weekStats weekKey with
    | none => split_ifs <;> simp [alGet_alModify, halg]
    | some w => split_ifs <;> simp [alGet_alModify, halg]
  · intro h180
    subst h180
    norm_num
    split_ifs <;> simp
  · intro h180
    subst h180
    norm_num
    split_ifs <;> simp

/-- **C2 (counterexample).** The input `"TB"` is not a token of the
documented cricket grammar (`T<number>`, `D<number>`, `S<number>`, `SB`,
`DB`), yet `parseCricketMarks` scores it 3 rather than 0: the regex
alternative `[TDS](?:B|[0-9]+)` matches `"TB"` and the `hit[0] === "T"`
fallthrough counts it as a triple.  This refutes the claim that
unrecognized tokens contribute nothing to the total. -/
theorem c2_counterexample : parseCricketMarks (JSVal.str "TB") = 3 := by
  show marksFrom "TB".data = 3
  rw [show "TB".data = 'T' :: 'B' :: [] from rfl]
  rw [marksFrom_bull 'T' [] (by simp), repSplit_nil, marksFrom_nil]
  decide

/-- **C2 (amended).** On every notation string rendered from the grammar
(tokens `T<number>`, `D<number>`, `S<number>`, `SB`, `DB`, each with an
optional `x<digit>` repetition, plus bare `0`, joined by `", "`),
`parseCricketMarks` returns exactly the sum over tokens of value times
repetition (triple=3, double=2, single=1, `DB`=2, `SB`=1); every
non-string input and the empty string yield 0 (the function is total, so
it never raises).  Text outside the grammar contributes nothing — except
character runs that themselves match the hit pattern
`[TDS](B|digits)(x digit)?`, such as `"TB"`, which are counted. -/
theorem c2_amended_marks :
    (∀ toks : List CTok, (∀ t ∈ toks, t.wf = true) →
      parseCricketMarks (JSVal.str (String.mk (renderToks toks))) = sumVals toks) ∧
    (∀ n : Int, parseCricketMarks (JSVal.num n) = 0) ∧
    parseCricketMarks JSVal.null = 0 ∧
    parseCricketMarks (JSVal.str "") = 0 := by
  refine ⟨?_, fun n => rfl, rfl, ?_⟩
  · intro toks h
    show marksFrom (String.mk (renderToks toks)).data = sumVals toks
    exact marksFrom_renderToks toks h
  · show marksFrom "".data = 0
    rw [show "".data = ([] : List Char) from rfl, marksFrom_nil]

/-- **C2 (witness).** The documented example: `"T20, S18x2, DB, 0"`
parses to 3 + 1×2 + 2 + 0 = 7 marks. -/
theorem c2_amended_marks_witness :
    parseCricketMarks (JSVal.str "T20, S18x2, DB, 0") = 7 := by
  have h := c2_amended_marks.1
    [CTok.hit (CHit.triple ['2', '0']) none,
     CTok.hit (CHit.single ['1', '8']) (some 2),
     CTok.hit CHit.doubleBull none,
     CTok.zero] (by decide)
  have hs : String.mk (renderToks
      [CTok.hit (CHit.triple ['2', '0']) none,
       CTok.hit (CHit.single ['1', '8']) (some 2),
       CTok.hit CHit.doubleBull none,
       CTok.zero]) = "T20, S18x2, DB, 0" := by decide
  rw [hs] at h
  rw [h]
  decide

/-- **C4.** The strength-of-schedule value is the arithmetic mean, over
every entry of the player's accumulated opponents-faced list (with
multiplicity), of that opponent's season set-win percentage
`setWins/(setWins+setLosses)` as computed in the first pass
(`playerWinPct`), with 0 used both for an opponent with no sets played
and for a name absent from the accumulation map.  (The source stores this
value formatted with `toFixed(3)`; the win-percentage first pass, section
G, runs before any SOS is derived in section K.) -/
theorem c4_sos_is_mean (accums : AccMap) (acc : PlayerAccum)
    (h : acc.opponentNames ≠ []) :
    sosOf (playerWinPct accums) acc =
      some ((acc.opponentNames.map (sosLookup (playerWinPct accums))).sum /
        (acc.opponentNames.length : Rat)) ∧
    (∀ nm acc2, alGet accums nm = some acc2 → acc2.setWins + acc2.setLosses = 0 →
      sosLookup (playerWinPct accums) nm = 0) ∧
    (∀ nm, alGet accums nm = none → sosLookup (playerWinPct accums) nm = 0) := by
  refine ⟨?_, ?_, ?_⟩
  · unfold sosOf
    rw [if_neg (by simpa [List.isEmpty_iff] using h)]
    rw [foldl_add_eq_sum (sosLookup (playerWinPct accums)) acc.opponentNames 0]
    rw [zero_add]
  · intro nm acc2 hget htot
    unfold sosLookup
    unfold playerWinPct
    rw [alGet_map_snd accums winPctVal nm, hget]
    simp [winPctVal, htot]
  · intro nm hget
    unfold sosLookup
    unfold playerWinPct
    rw [alGet_map_snd accums winPctVal nm, hget]
    rfl

/-- **C4 (witness).** Opponents with season win percentages 1.0, 0.5 and
0.0, each faced exactly once, give SOS (1 + 1/2 + 0)/3 = 0.500. -/
theorem c4_sos_is_mean_witness :
    sosOf
      (playerWinPct
        [("A", { emptyAccum "1" "A" "T1" with setWins := 2, setLosses := 0 }),
         ("B", { emptyAccum "2" "B" "T1" with setWins := 1, setLosses := 1 }),
         ("C", { emptyAccum "3" "C" "T1" with setWins := 0, setLosses := 2 }),
         ("Dana", { emptyAccum "4" "Dana" "T2" with opponentNames := ["A", "B", "C"] })])
      { emptyAccum "4" "Dana" "T2" with opponentNames := ["A", "B", "C"] } =
      some (1 / 2 : Rat) := by
  have h := (c4_sos_is_mean
    [("A", { emptyAccum "1" "A" "T1" with setWins := 2, setLosses := 0 }),
     ("B", { emptyAccum "2" "B" "T1" with setWins := 1, setLosses := 1 }),
     ("C", { emptyAccum "3" "C" "T1" with setWins := 0, setLosses := 2 }),
     ("Dana", { emptyAccum "4" "Dana" "T2" with opponentNames := ["A", "B", "C"] })]
    { emptyAccum "4" "Dana" "T2" with opponentNames := ["A", "B", "C"] }
    (by decide)).1
  rw [h]
  simp only [sosLookup, playerWinPct, winPctVal, alGet, List.map_cons, List.map_nil,
    List.find?, emptyAccum]
  simp only [show decide ("A" = "B") = false from by decide,
    show decide ("A" = "C") = false from by decide,
    show decide ("B" = "C") = false from by decide]
  norm_num

theorem alGet_alSet_self {κ β : Type} [DecidableEq κ] (l : List (κ × β)) (k : κ) (v : β) :
    alGet (alSet l k v) k = some v := by
  by_cases h : l.any (fun p => p.1 = k)
  · unfold alSet
    rw [if_pos h]
    induction l with
    | nil => simp at h
    | cons p l ih =>
      by_cases hp : p.1 = k
      · rw [List.map_cons, if_pos hp, alGet_cons]
        simp [hp]
      · rw [List.map_cons, if_neg hp, alGet_cons, if_neg hp]
        have h2 : l.any (fun p => p.1 = k) := by
          simp only [List.any_cons, Bool.or_eq_true] at h
          rcases h with h | h
          · exact absurd (by simpa using h) hp
          · exact h
        exact ih h2
  · unfold alSet
    rw [if_neg h]
    induction l with
    | nil => simp [alGet, List.find?]
    | cons p l ih =>
      rw [List.cons_append, alGet_cons]
      have hp : ¬ p.1 = k := by
        intro hcon
        exact h (by simp [hcon])
      rw [if_neg hp]
      have h2 : ¬ l.any (fun p => p.1 = k) := by
        intro hcon
        exact h (by simp [List.any_cons, hcon])
      exact ih h2

/-- **C1 (witness).** A 501 tiebreaker (game-3) turn scoring 140 leaves
the 100+ total of a fresh accumulator unchanged; one scoring 180
increments the 180 counter but not the 100+ total, unless the
perfect-score flag is enabled, in which case the 180 is added. -/
theorem c1_tiebreaker_100plus_default_witness :
    (applyTurnSide defaultG3 (gameType "501 DIDO")
        (legIs501TB (gameType "501 DIDO")
          { set_index := 0, set_game_number := 3, game_name := "501 DIDO",
            winner_index := 0, home := ⟨none, none, none⟩, away := ⟨none, none, none⟩,
            turns := [] })
        (legIsCrktG3 (gameType "501 DIDO")
          { set_index := 0, set_game_number := 3, game_name := "501 DIDO",
            winner_index := 0, home := ⟨none, none, none⟩, away := ⟨none, none, none⟩,
            turns := [] })
        "27 Jan 2026" { name := "Alice", turn_score := JSVal.num 140, current_score := some 301 }
        (emptyAccum "1" "Alice" "Team")).hundredPlus =
      (emptyAccum "1" "Alice" "Team").hundredPlus ∧
    (applyTurnSide defaultG3 (gameType "501 DIDO")
        (legIs501TB (gameType "501 DIDO")
          { set_index := 0, set_game_number := 3, game_name := "501 DIDO",
            winner_index := 0, home := ⟨none, none, none⟩, away := ⟨none, none, none⟩,
            turns := [] })
        (legIsCrktG3 (gameType "501 DIDO")
          { set_index := 0, set_game_number := 3, game_name := "501 DIDO",
            winner_index := 0, home := ⟨none, none, none⟩, away := ⟨none, none, none⟩,
            turns := [] })
        "27 Jan 2026" { name := "Alice", turn_score := JSVal.num 180, current_score := some 321 }
        (emptyAccum "1" "Alice" "Team")).oneEighty =
      (emptyAccum "1" "Alice" "Team").oneEighty + 1 ∧
    (applyTurnSide { defaultG3 with includePerfect := true } (gameType "501 DIDO")
        (legIs501TB (gameType "501 DIDO")
          { set_index := 0, set_game_number := 3, game_name := "501 DIDO",
            winner_index := 0, home := ⟨none, none, none⟩, away := ⟨none, none, none⟩,
            turns := [] })
        (legIsCrktG3 (gameType "501 DIDO")
          { set_index := 0, set_game_number := 3, game_name := "501 DIDO",
            winner_index := 0, home := ⟨none, none, none⟩, away := ⟨none, none, none⟩,
            turns := [] })
        "27 Jan 2026" { name := "Alice", turn_score := JSVal.num 180, current_score := some 321 }
        (emptyAccum "1" "Alice" "Team")).hundredPlus =
      (emptyAccum "1" "Alice" "Team").hundredPlus + 180 := by
  refine ⟨?_, ?_, ?_⟩
  · exact (c1_tiebreaker_100plus_default "501 DIDO" _ "27 Jan 2026" _ 140
      (emptyAccum "1" "Alice" "Team") (by decide) rfl rfl (by norm_num)).1
  · exact (c1_tiebreaker_100plus_default "501 DIDO" _ "27 Jan 2026" _ 180
      (emptyAccum "1" "Alice" "Team") (by decide) rfl rfl (by norm_num)).2.2.2.1 rfl
  · exact (c1_tiebreaker_100plus_default "501 DIDO" _ "27 Jan 2026" _ 180
      (emptyAccum "1" "Alice" "Team") (by decide) rfl rfl (by norm_num)).2.2.2.2 rfl

/-- **C5 (counterexample).** An anchor of round 1 with a history match
dated exactly 7 days earlier: the offset is a positive whole multiple of
7, and the claim's formula `anchorRound - days/7` gives 0, but the code
additionally requires the inferred round to be positive and leaves the
round null, so the claim as stated fails. -/
theorem c5_counterexample :
    inferRoundFor 7 1 (some 0) false = none ∧
    inferRoundFor 7 1 (some 0) false ≠ some (1 - (7 - 0) / 7) := by
  constructor
  · decide
  · decide

/-- **C5 (amended).** With the earliest-dated schedule anchor `(aD, aR)`,
a history match dated exactly `7k` days earlier (`k ≥ 1`) is assigned
round `aR - k` **provided that value is positive**; when `aR - k ≤ 0` the
round stays null; an offset that is not an exact multiple of 7 days stays
null; and the inference step equals its closed-form characterization. -/
theorem c5_round_inference (aD aR k : Int) (hk : 1 ≤ k) :
    (1 ≤ aR - k →
      alGet (inferRounds [(aD, aR)] [some (aD - 7 * k)]) (aD - 7 * k) = some (aR - k)) ∧
    (aR - k ≤ 0 →
      alGet (inferRounds [(aD, aR)] [some (aD - 7 * k)]) (aD - 7 * k) = none) ∧
    (∀ d, d < aD → ¬ (7:Int) ∣ (aD - d) →
      alGet (inferRounds [(aD, aR)] [some d]) d = none) ∧
    (∀ d, inferRoundFor aD aR (some d) false =
      if d < aD ∧ (7:Int) ∣ (aD - d) ∧ 1 ≤ aR - (aD - d) / 7 then
        some (aR - (aD - d) / 7)
      else none) := by
  have hchar : ∀ d, inferRoundFor aD aR (some d) false =
      if d < aD ∧ (7:Int) ∣ (aD - d) ∧ 1 ≤ aR - (aD - d) / 7 then
        some (aR - (aD - d) / 7)
      else none := by
    intro d
    simp only [inferRoundFor, Bool.or_false]
    by_cases hd : d < aD
    · have hge : ¬ (decide (d ≥ aD) = true) := by simp; omega
      rw [if_neg hge]
      by_cases hdvd : (7:Int) ∣ (aD - d)
      · have hmod : (aD - d) % 7 = 0 := Int.emod_eq_zero_of_dvd hdvd
        rw [if_pos ⟨by omega, hmod⟩]
        by_cases hpos : 1 ≤ aR - (aD - d) / 7
        · rw [if_pos (by omega), if_pos ⟨hd, hdvd, hpos⟩]
        · rw [if_neg (by omega), if_neg (by rintro ⟨h1, h2, h3⟩; exact hpos h3)]
      · have hmod : ¬ ((aD - d) % 7 = 0) := fun hcon => hdvd (Int.dvd_of_emod_eq_zero hcon)
        rw [if_neg (by rintro ⟨h1, h2⟩; exact hmod h2)]
        rw [if_neg (by rintro ⟨h1, h2, h3⟩; exact hdvd h2)]
    · have hge : decide (d ≥ aD) = true := by simp; omega
      rw [if_pos hge]
      rw [if_neg (by rintro ⟨h1, h2⟩; exact hd h1)]
  have hrun : ∀ e : Int, inferRounds [(aD, aR)] [some e] =
      (match inferRoundFor aD aR (some e) (alHas [(aD, aR)] e) with
       | some r => alSet [(aD, aR)] e r
       | none => [(aD, aR)]) := fun e => rfl
  have hdiv : (aD - (aD - 7 * k)) / 7 = k := by
    rw [show aD - (aD - 7 * k) = 7 * k from by ring]
    exact Int.mul_ediv_cancel_left k (by norm_num)
  have hdk : aD - 7 * k < aD := by omega
  have hhas : alHas [(aD, aR)] (aD - 7 * k) = false := by
    simp only [alHas, List.any_cons, List.any_nil, Bool.or_false,
      decide_eq_false_iff_not]
    omega
  refine ⟨?_, ?_, ?_, hchar⟩
  · intro hpos
    rw [hrun, hhas, hchar]
    rw [if_pos ⟨hdk, ⟨k, by ring⟩, by rw [hdiv]; exact hpos⟩]
    rw [hdiv]
    exact alGet_alSet_self _ _ _
  · intro hle
    rw [hrun, hhas, hchar]
    rw [if_neg (by rintro ⟨h1, h2, h3⟩; rw [hdiv] at h3; omega)]
    have hne : ¬ (aD = aD - 7 * k) := by omega
    simp [alGet, List.find?, hne]
  · intro d hd hdvd
    have hhas2 : alHas [(aD, aR)] d = false := by
      simp only [alHas, List.any_cons, List.any_nil, Bool.or_false,
        decide_eq_false_iff_not]
      omega
    rw [hrun, hhas2, hchar]
    rw [if_neg (by rintro ⟨h1, h2, h3⟩; exact hdvd h2)]
    have hne : ¬ (aD = d) := by omega
    simp [alGet, List.find?, hne]

/-- **C5 (witness).** The documented example: anchor round 6, a match 14
days earlier gets round 6 − 14/7 = 4; a match 10 days earlier (not a
multiple of 7) gets none; and the counterexample's boundary shape (anchor
round 1, 7 days earlier) stays null. -/
theorem c5_round_inference_witness :
    alGet (inferRounds [(100, 6)] [some 86]) 86 = some 4 ∧
    alGet (inferRounds [(100, 6)] [some 90]) 90 = none ∧
    alGet (inferRounds [(100, 1)] [some 93]) 93 = none := by
  refine ⟨?_, ?_, ?_⟩
  · have h := (c5_round_inference 100 6 2 (by norm_num)).1 (by norm_num)
    norm_num at h
    exact h
  · exact (c5_round_inference 100 6 1 (by norm_num)).2.2.1 90 (by norm_num) (by decide)
  · have h := (c5_round_inference 100 1 1 (by norm_num)).2.1 (by norm_num)
    norm_num at h
    exact h

theorem seasonFold_results (f : Int → Except String (Int × Int)) (targets : List DCSeasonM) :
    ∀ (p m : Int) (acc : List (String × SeasonOutcome)),
      (targets.foldl (seasonFoldStep f) (p, m, acc)).2.2 =
        acc ++ targets.map (fun s => (seasonKey s, seasonOutcomeOf (f s.id))) := by
  induction targets with
  | nil => intro p m acc; simp
  | cons s ts ih =>
    intro p m acc
    rw [List.foldl_cons]
    cases hfs : f s.id with
    | ok pm =>
      rw [show seasonFoldStep f (p, m, acc) s =
          (p + pm.1, m + pm.2, acc ++ [(seasonKey s, seasonOutcomeOf (f s.id))]) from by
        simp [seasonFoldStep, hfs]]
      rw [ih]
      simp
    | error msg =>
      rw [show seasonFoldStep f (p, m, acc) s =
          (p, m, acc ++ [(seasonKey s, seasonOutcomeOf (f s.id))]) from by
        simp [seasonFoldStep, hfs]]
      rw [ih]
      simp

/-- **C6.** When the authoritative recap data is present
(`matchInfo.opponents` with at least two entries) and both team names
resolve in it, the persisted scores are the authoritative per-side scores,
overriding the locally-summed set-win counts; the local counts are used
when the recap data is unavailable. -/
theorem c6_authoritative_score_priority (mi : DCMatchInfo) (rs : Option Int)
    (sd : Option String) (hN aN : String) (hsw asw h a : Int)
    (hlen : 2 ≤ mi.opponents.length)
    (hh : lookupOppScoreLast mi.opponents hN = some h)
    (ha : lookupOppScoreLast mi.opponents aN = some a) :
    resolveScores (some ⟨some mi, rs, sd⟩) hN aN hsw asw = (h, a) ∧
    resolveScores none hN aN hsw asw = (hsw, asw) ∧
    (∀ rs2 sd2, resolveScores (some ⟨none, rs2, sd2⟩) hN aN hsw asw = (hsw, asw)) := by
  refine ⟨?_, rfl, fun rs2 sd2 => rfl⟩
  show (if 2 ≤ mi.opponents.length then
      match lookupOppScoreLast mi.opponents hN, lookupOppScoreLast mi.opponents aN with
      | some fromHome, some fromAway => (fromHome, fromAway)
      | _, _ =>
        ((((mi.opponents.get? 0).bind (·.score)).getD hsw),
         (((mi.opponents.get? 1).bind (·.score)).getD asw))
    else (hsw, asw)) = (h, a)
  rw [if_pos hlen, hh, ha]

/-- **C6 (witness).** Local set counting says 2–1 but the recap reports
3–1 (a forfeited set): the persisted score is 3–1; with no recap data the
local 2–1 stands. -/
theorem c6_authoritative_score_priority_witness :
    resolveScores
      (some { matchInfo := some { opponents := [⟨"Aces", some 3⟩, ⟨"Bulls", some 1⟩],
                                  match_winner := some 0 },
              roundSeq := none, schedDate := none })
      "Aces" "Bulls" 2 1 = (3, 1) ∧
    resolveScores none "Aces" "Bulls" 2 1 = (2, 1) := by
  constructor
  · exact (c6_authoritative_score_priority
      { opponents := [⟨"Aces", some 3⟩, ⟨"Bulls", some 1⟩], match_winner := some 0 }
      none none "Aces" "Bulls" 2 1 3 1 (by decide) (by decide) (by decide)).1
  · exact (c6_authoritative_score_priority
      { opponents := [⟨"Aces", some 3⟩, ⟨"Bulls", some 1⟩], match_winner := some 0 }
      none none "Aces" "Bulls" 2 1 3 1 (by decide) (by decide) (by decide)).2.1

theorem foldl_hotHand (f : WeekRow → Int) (q : WeekRow → Bool) (weeks : List WeekRow) :
    ∀ z : Option Int,
      weeks.foldl
        (fun z w =>
          if q w then
            match z with
            | none => some (f w)
            | some v => some (max v (f w))
          else z) z =
      match z with
      | none => ((weeks.filter q).map f).max?
      | some v => some (((weeks.filter q).map f).foldl max v) := by
  induction weeks with
  | nil => intro z; cases z <;> rfl
  | cons w ws ih =>
    intro z
    rw [List.foldl_cons]
    by_cases hq : q w
    · rw [if_pos hq]
      cases z with
      | none =>
        refine (ih (some (f w))).trans ?_
        simp [List.filter_cons, hq, List.max?]
      | some v =>
        refine (ih (some (max v (f w)))).trans ?_
        simp [List.filter_cons, hq]
    · rw [if_neg hq]
      refine (ih z).trans ?_
      cases z <;> simp [List.filter_cons, hq]

/-- **C7.** The page-level derived pass computes the 01 hot-hand value as
the maximum weekly 100+ total among the weeks that meet or exceed the
division's threshold (none when no week qualifies), and the cricket
analogue identically over weekly rounds totals; with no configuration
rows the thresholds are the per-division defaults (A: 475/20, B: 450/17,
C: 425/14, D: 400/12), and a stored config row overrides a division's
threshold while keeping the other default.  This pass runs over the
persisted week-level rows and overrides the scrape-stored values. -/
theorem c7_hothand_derived_pass :
    (∀ (th : HhThresholds) (weeks : List WeekRow),
      hotHand01 th weeks =
        ((weeks.filter (fun w => meetsThr w.hundredPlus th.hh)).map (·.hundredPlus)).max?) ∧
    (∀ (th : HhThresholds) (weeks : List WeekRow),
      hotHandRo th weeks =
        ((weeks.filter (fun w => meetsThr w.rnds th.roHh)).map (·.rnds)).max?) ∧
    (∀ seasonId,
      thresholdsFor (getHhThresholds [] seasonId) "A" = ⟨some 475, some 20⟩ ∧
      thresholdsFor (getHhThresholds [] seasonId) "B" = ⟨some 450, some 17⟩ ∧
      thresholdsFor (getHhThresholds [] seasonId) "C" = ⟨some 425, some 14⟩ ∧
      thresholdsFor (getHhThresholds [] seasonId) "D" = ⟨some 400, some 12⟩) ∧
    thresholdsFor
      (getHhThresholds [{ scope := "7", division := some "B",
                          key := "01_hh.threshold", value := "500" }] "7") "B" =
      ⟨some 500, some 17⟩ := by
  refine ⟨?_, ?_, fun seasonId => ⟨rfl, rfl, rfl, rfl⟩, by decide⟩
  · intro th weeks
    exact foldl_hotHand (·.hundredPlus) (fun w => meetsThr w.hundredPlus th.hh) weeks none
  · intro th weeks
    exact foldl_hotHand (·.rnds) (fun w => meetsThr w.rnds th.roHh) weeks none

/-- **C8.** A season list with no active or archived seasons aborts the
whole run with "No seasons found" before any season is processed (the
outcome does not depend on the per-season scrape at all); otherwise every
selected target season gets exactly one `seasonResults` entry — an error
raised inside one season's pass is caught, recorded with its message, and
the remaining seasons are still processed. -/
theorem c8_failure_isolation :
    (∀ (lg : String) (ls : Int → Bool) (f : Int → Except String (Int × Int))
        (payload : ScrapePayloadM) (trig : String),
      runScrapeM ⟨[], [], lg⟩ ls f payload trig = .error "No seasons found") ∧
    (∀ (pp : PagePropsM) (ls : Int → Bool) (f : Int → Except String (Int × Int))
        (payload : ScrapePayloadM) (trig : String) (targets : List DCSeasonM),
      (pp.activeSeasons ++ pp.archivedSeasons) ≠ [] →
      selectTargets pp payload ls = .ok targets →
      ∃ r, runScrapeM pp ls f payload trig = .ok r ∧
        r.seasonResults = targets.map (fun s => (seasonKey s, seasonOutcomeOf (f s.id)))) := by
  constructor
  · intro lg ls f payload trig
    rfl
  · intro pp ls f payload trig targets hne hsel
    unfold runScrapeM
    rw [if_neg (by simpa [List.isEmpty_iff] using hne)]
    rw [hsel]
    refine ⟨_, rfl, ?_⟩
    show (targets.foldl (seasonFoldStep f) (0, 0, [])).2.2 = _
    rw [seasonFold_results f targets 0 0 []]
    simp

/-- **C8 (witness).** Two target seasons, the second's scrape throwing
"boom": the run still succeeds, records the first season's counts, and
records the second season's error message — the failure did not stop the
run. -/
theorem c8_failure_isolation_witness :
    ∃ r, runScrapeM ⟨[⟨1, 9, "S1", none⟩], [⟨2, 9, "S2", none⟩], "g"⟩ (fun _ => false)
        (fun sid => if sid = 1 then .ok (3, 4) else .error "boom")
        ⟨none, true, true⟩ "manual" = .ok r ∧
      r.seasonResults =
        [("1_S1", { ok := true, playersUpdated := 3, matchesUpdated := 4, error := none }),
         ("2_S2", { ok := false, playersUpdated := 0, matchesUpdated := 0, error := some "boom" })] := by
  obtain ⟨r, hr, hs⟩ := c8_failure_isolation.2
    ⟨[⟨1, 9, "S1", none⟩], [⟨2, 9, "S2", none⟩], "g"⟩ (fun _ => false)
    (fun sid => if sid = 1 then .ok (3, 4) else .error "boom")
    ⟨none, true, true⟩ "manual" [⟨1, 9, "S1", none⟩, ⟨2, 9, "S2", none⟩]
    (by decide) (by decide)
  refine ⟨r, hr, ?_⟩
  rw [hs]
  decide

/-- **C9 (counterexample).** One season whose scrape pass throws "boom":
`runScrape` still completes and the only persisted scrape-log row has
status `"success"`, aggregate counts, and no error text — the
fatal-to-season error is recorded only in the in-memory `seasonResults`
payload, not in the persisted run log, contradicting the claim. -/
theorem c9_counterexample :
    persistedLog ⟨[⟨1, 9, "S1", none⟩], [], "g"⟩ (fun _ => false)
      (fun _ => .error "boom") ⟨none, false, false⟩ "manual" =
      [{ seasonId := some 1, triggeredBy := "manual", status := "success",
         playersUpdated := some 0, matchesUpdated := some 0, errorMessage := none }] := by
  decide

/-- **C9 (amended).** Fatal-to-run errors are persisted: any `runScrape`
throw is caught by the background handler, which appends a scrape-log row
with status `"error"` and the error text (without counts).  A
fatal-to-season error is NOT persisted: a successful run's own log rows
always carry status `"success"` and no error text, and the per-season
error is recorded only in the in-memory `seasonResults` entry for that
season. -/
theorem c9_error_log_persistence :
    (∀ (pp : PagePropsM) (ls : Int → Bool) (f : Int → Except String (Int × Int))
        (payload : ScrapePayloadM) (trig msg : String),
      runScrapeM pp ls f payload trig = .error msg →
      persistedLog pp ls f payload trig =
        [{ seasonId := none, triggeredBy := trig, status := "error",
           playersUpdated := none, matchesUpdated := none, errorMessage := some msg }]) ∧
    (∀ (pp : PagePropsM) (ls : Int → Bool) (f : Int → Except String (Int × Int))
        (payload : ScrapePayloadM) (trig : String) (r : ScrapeResultM),
      runScrapeM pp ls f payload trig = .ok r →
      persistedLog pp ls f payload trig = r.logRows ∧
      ∀ row ∈ r.logRows, row.status = "success" ∧ row.errorMessage = none) ∧
    (∀ (pp : PagePropsM) (ls : Int → Bool) (f : Int → Except String (Int × Int))
        (payload : ScrapePayloadM) (trig : String) (targets : List DCSeasonM)
        (s : DCSeasonM) (msg : String),
      (pp.activeSeasons ++ pp.archivedSeasons) ≠ [] →
      selectTargets pp payload ls = .ok targets →
      s ∈ targets → f s.id = .error msg →
      ∃ r, runScrapeM pp ls f payload trig = .ok r ∧
        (seasonKey s,
          { ok := false, playersUpdated := 0, matchesUpdated := 0,
            error := some msg : SeasonOutcome }) ∈ r.seasonResults) := by
  refine ⟨?_, ?_, ?_⟩
  · intro pp ls f payload trig msg hrun
    unfold persistedLog
    rw [hrun]
  · intro pp ls f payload trig r hrun
    constructor
    · unfold persistedLog
      rw [hrun]
    · simp only [runScrapeM] at hrun
      by_cases hempty : (pp.activeSeasons ++ pp.archivedSeasons).isEmpty = true
      · rw [if_pos hempty] at hrun
        simp at hrun
      · rw [if_neg hempty] at hrun
        cases hsel : selectTargets pp payload ls with
        | err m =>
          rw [hsel] at hrun
          simp at hrun
        | early =>
          rw [hsel] at hrun
          have hr2 := Except.ok.inj hrun
          subst hr2
          intro row hrow
          simp at hrow
        | ok targets =>
          rw [hsel] at hrun
          have hr2 := Except.ok.inj hrun
          subst hr2
          intro row hrow
          simp at hrow
          subst hrow
          exact ⟨rfl, rfl⟩
  · intro pp ls f payload trig targets s msg hne hsel hmem hferr
    obtain ⟨r, hr, hs⟩ := c8_failure_isolation.2 pp ls f payload trig targets hne hsel
    refine ⟨r, hr, ?_⟩
    rw [hs]
    rw [List.mem_map]
    refine ⟨s, hmem, ?_⟩
    rw [hferr]
    rfl

/-- **C9 (witness).** A failing run (empty season list) persists an error
row with its message; a run whose only season fails persists no error row
but the in-memory seasonResults entry carries the error. -/
theorem c9_error_log_persistence_witness :
    persistedLog ⟨[], [], "g"⟩ (fun _ => false) (fun _ => .ok (0, 0))
      ⟨none, false, false⟩ "bg" =
      [{ seasonId := none, triggeredBy := "bg", status := "error",
         playersUpdated := none, matchesUpdated := none,
         errorMessage := some "No seasons found" }] ∧
    (∃ r, runScrapeM ⟨[⟨1, 9, "S1", none⟩], [], "g"⟩ (fun _ => false)
        (fun _ => .error "boom") ⟨none, false, false⟩ "manual" = .ok r ∧
      ("1_S1", { ok := false, playersUpdated := 0, matchesUpdated := 0,
                 error := some "boom" : SeasonOutcome }) ∈ r.seasonResults) := by
  constructor
  · exact c9_error_log_persistence.1 ⟨[], [], "g"⟩ (fun _ => false) (fun _ => .ok (0, 0))
      ⟨none, false, false⟩ "bg" "No seasons found" rfl
  · exact c9_error_log_persistence.2.2 ⟨[⟨1, 9, "S1", none⟩], [], "g"⟩ (fun _ => false)
      (fun _ => .error "boom") ⟨none, false, false⟩ "manual" [⟨1, 9, "S1", none⟩]
      ⟨1, 9, "S1", none⟩ "boom" (by decide) (by decide) (by decide) rfl

/-- **C10.** `guidToFakeId` is a pure function of the GUID string (the
32-bit wrapping polynomial hash `h = (h*31 + code) | 0`, bit-complemented
when non-negative, where `~h = -(h+1)`), and its result is strictly
negative for every input, so it can never equal any positive external
match id. -/
theorem c10_guidToFakeId_negative (guid : String) :
    guidToFakeId guid < 0 ∧ ∀ n : Int, 0 < n → guidToFakeId guid ≠ n := by
  refine ⟨guidToFakeId_neg guid, fun n hn heq => ?_⟩
  have hneg := guidToFakeId_neg guid
  omega

/-- **C10 (witness).** A concrete GUID: the hash of `"abc"` is 96354, so
the fake id is `-(96354+1) = -96355`, which is negative and differs from
the positive id 12345. -/
theorem c10_guidToFakeId_negative_witness :
    guidToFakeId "abc" = -96355 ∧ guidToFakeId "abc" < 0 ∧
    (0:Int) < 12345 ∧ guidToFakeId "abc" ≠ 12345 :=
  ⟨by decide, (c10_guidToFakeId_negative "abc").1, by norm_num,
   (c10_guidToFakeId_negative "abc").2 12345 (by norm_num)⟩
